import Mathlib

/-!
Shallow embedding of the simulation core of `src/main.rs` (the
"Space Command" projectile/explosion loop).  Floating-point scalars
(`f32`/`f64`) are idealized as exact rationals `ℚ`; 2-D vectors
(`Vec2`) are pairs `ℚ × ℚ`; `std::time::Duration` is a rational number
of seconds; colors are an enumeration of the named constants used by
the program.  The per-frame game loop of `main` is split into its two
state-mutating parts: the spawn accumulator (lines 351-359) and the
per-tick registry pass over the bullet vector (lines 362-397).
-/

namespace SpaceCommand

/-- The named macroquad color constants the program uses. -/
inductive Color where
  | red
  | white
  | gray
  | black
  deriving DecidableEq, Repr

/-- Componentwise sum of two `Vec2` values. -/
def vadd (a b : ℚ × ℚ) : ℚ × ℚ := (a.1 + b.1, a.2 + b.2)

/-- A `Vec2` scaled by a scalar. -/
def vscale (k : ℚ) (v : ℚ × ℚ) : ℚ × ℚ := (k * v.1, k * v.2)

/-- Squared Euclidean length of the difference of two `Vec2` values:
`((a - b).length())^2`. -/
def distSq (a b : ℚ × ℚ) : ℚ := (a.1 - b.1) ^ 2 + (a.2 - b.2) ^ 2

/-- `struct Explosion` (main.rs lines 11-19). -/
structure Explosion where
  position : ℚ × ℚ
  color : Color
  size : ℚ
  spawn_time : ℚ
  duration : ℚ
  flash : Bool
  deriving DecidableEq, Repr

/-- `Explosion::get_spawn_time` (main.rs lines 76-78). -/
def Explosion.get_spawn_time (e : Explosion) : ℚ := e.spawn_time

/-- `struct Bullet` (main.rs lines 21-31). -/
structure Bullet where
  source : ℚ × ℚ
  position : ℚ × ℚ
  velocity : ℚ × ℚ
  target : ℚ × ℚ
  color : Color
  explosion : Option Explosion
  exploding : Bool
  exploded : Bool
  deriving DecidableEq, Repr

/-- `Bullet::new` (main.rs lines 34-45). -/
def Bullet.new (source target velocity : ℚ × ℚ) : Bullet :=
  { source := source
    position := source
    velocity := velocity
    target := target
    color := Color.red
    explosion := none
    exploding := false
    exploded := false }

/-- `Bullet::explode` (main.rs lines 47-61).  `get_time()` is the
simulation clock, passed in as `now`. -/
def Bullet.explode (b : Bullet) (color : Color) (size : ℚ) (duration : ℚ)
    (flash : Bool) (now : ℚ) : Bullet :=
  if b.exploding || b.exploded then b
  else
    { b with
      explosion := some
        { position := b.position
          color := color
          size := size
          spawn_time := now
          duration := duration
          flash := flash }
      exploding := true }

/-- `Bullet::get_explosion_spawn_time` (main.rs lines 63-68).  The Rust
body calls `Option::unwrap`, which panics on `None`; the panic is
modelled by returning `none`, so a `some` result means the accessor
returned normally. -/
def Bullet.get_explosion_spawn_time (b : Bullet) : Option ℚ :=
  if b.explosion.isNone then some 0
  else
    match b.explosion with
    | none => none
    | some e => some e.spawn_time

/-- `Bullet::at_target` (main.rs lines 70-72): Euclidean distance to the
target strictly below 5.  Stated on squared distances, which is
equivalent for nonnegative radicands (proved in claim C7). -/
def Bullet.at_target (b : Bullet) : Bool :=
  distSq b.position b.target < 25

/-- `struct Difficulty` (main.rs lines 206-213).  `u32` counters are
idealized as `ℕ` (no value in any reachable claim approaches 2^32). -/
structure Difficulty where
  missile_spawn_rate : ℚ
  missile_speed : ℚ
  missile_rounds : ℕ
  round : ℕ
  explosion_size : ℚ
  deriving DecidableEq, Repr

/-- `Difficulty::new` (main.rs lines 216-224). -/
def Difficulty.new : Difficulty :=
  { missile_spawn_rate := 3
    missile_speed := 50
    missile_rounds := 10
    round := 1
    explosion_size := 100 }

/-- `Difficulty::reset` (main.rs lines 226-232). -/
def Difficulty.reset (_d : Difficulty) : Difficulty :=
  { missile_spawn_rate := 3
    missile_speed := 50
    missile_rounds := 10
    round := 1
    explosion_size := 100 }

/-- `Difficulty::increase_difficulty` (main.rs lines 234-240).  Field
updates happen in source order: the `round` increment lands between the
`missile_rounds` update and the `explosion_size` update. -/
def Difficulty.increase_difficulty (d : Difficulty) : Difficulty :=
  let spawn_rate := d.missile_spawn_rate - (1 / 10) * (d.round : ℚ)
  let speed := d.missile_speed + (11 / 10) * (d.round : ℚ)
  let rounds := d.missile_rounds + 1 * d.round
  let round := d.round + 1
  let size := d.explosion_size - (1 / 100) * (round : ℚ)
  { missile_spawn_rate := spawn_rate
    missile_speed := speed
    missile_rounds := rounds
    round := round
    explosion_size := size }

/-- The payload pushed into the bullet vector when the spawn threshold
fires (main.rs lines 353-356). -/
structure SpawnRequest where
  source : ℚ × ℚ
  target : ℚ × ℚ
  velocity : ℚ × ℚ
  deriving DecidableEq, Repr

/-- The spawn-accumulator step of the main loop (main.rs lines 351-359).
`st` is `time_since_spawn` before the frame, `dt` is `get_frame_time()`.
The random `source`/`target` points and the unit direction
`normalize(target - source)` come from the RNG and from `f32` square
roots, so they enter as oracle inputs `src`, `tgt`, `dir`; the emitted
velocity is `dir` scaled by `difficulty.get_missile_speed()`.  Returns
the new accumulator and the optional spawn request. -/
def schedTick (difficulty : Difficulty) (src tgt dir : ℚ × ℚ)
    (st dt : ℚ) : ℚ × Option SpawnRequest :=
  let elapsed := st + dt
  if elapsed > 1 then
    (0, some { source := src, target := tgt,
               velocity := vscale difficulty.missile_speed dir })
  else
    (elapsed, none)

/-- Number of spawns emitted by a sequence of frames starting from
accumulator value `st`, ignoring the request payloads (main.rs lines
351-359 iterated).  Direction oracles are irrelevant to the count. -/
def schedCountFrom (st : ℚ) : List ℚ → ℕ
  | [] => 0
  | dt :: dts =>
    let r := schedTick Difficulty.new (0, 0) (0, 0) (0, 0) st dt
    (if (r.2).isSome then 1 else 0) + schedCountFrom r.1 dts

/-- Number of spawns emitted by a sequence of frames from a fresh
accumulator (`time_since_spawn = 0`, main.rs line 274). -/
def schedCount (dts : List ℚ) : ℕ := schedCountFrom 0 dts

/-- The body of the first per-bullet loop of a frame (main.rs lines
362-376): a bullet that is `exploding` is flipped to `exploded`
(finalizing its one-tick explosion window), and then — unconditionally,
whatever the flags — `position += velocity * get_frame_time()`. -/
def tickBullet (dt : ℚ) (b : Bullet) : Bullet :=
  let b :=
    if b.exploding then { b with exploding := false, exploded := true }
    else b
  { b with position := vadd b.position (vscale dt b.velocity) }

/-- The arrival pass of a frame (main.rs lines 389-393): a bullet at its
target detonates with the hardcoded parameters `RED`, `size = 50`,
`duration = Duration::from_secs(1)`, `flash = false`. -/
def arrivalexplode (now : ℚ) (b : Bullet) : Bullet :=
  if b.at_target then b.explode Color.red 50 1 false now else b

/-- One full registry pass of the main loop over the bullet vector
(main.rs lines 362-397), in source order: flag-update + movement for
every bullet, `retain(!exploded)`, arrival detonation, and a second
`retain(!exploded)`. -/
def registryTick (dt now : ℚ) (bullets : List Bullet) : List Bullet :=
  let bs := bullets.map (tickBullet dt)
  let bs := bs.filter (fun b => !b.exploded)
  let bs := bs.map (arrivalexplode now)
  bs.filter (fun b => !b.exploded)

/-- The fate of a single bullet across one registry pass: `none` when the
bullet is pruned during the pass, `some` of its new state when it
survives into the next frame's vector. -/
def registryTickB (dt now : ℚ) (b : Bullet) : Option Bullet :=
  let m := tickBullet dt b
  if m.exploded then none
  else
    let m := arrivalexplode now m
    if m.exploded then none else some m

/-- The two operations that can touch a live bullet: a registry pass of
the main loop, or a direct `Bullet::explode` call. -/
inductive Op where
  | tick (dt now : ℚ)
  | explode (color : Color) (size duration : ℚ) (flash : Bool) (now : ℚ)

/-- A single bullet's evolution under one operation.  For a registry
pass this is the per-bullet fate `registryTickB`; a pruned bullet simply
stops changing (it no longer exists, so its last state is retained). -/
def applyOp (b : Bullet) : Op → Bullet
  | Op.tick dt now => (registryTickB dt now b).getD (tickBullet dt b)
  | Op.explode c s d f now => b.explode c s d f now

/-- A bullet's evolution under a sequence of operations. -/
def applyOps (b : Bullet) (ops : List Op) : Bullet :=
  ops.foldl applyOp b

/-- The three lifecycle states, read off the two flags the way the
renderer does: `exploded` dominates, then `exploding`, else traveling. -/
def Bullet.stateIdx (b : Bullet) : ℕ :=
  if b.exploded then 2 else if b.exploding then 1 else 0

/-- The lifecycle invariant: the explosion record is present exactly when
the bullet is exploding or exploded, and the two flags are never set
together. -/
def BulletInv (b : Bullet) : Prop :=
  b.explosion.isSome = (b.exploding || b.exploded) ∧
  ¬(b.exploding = true ∧ b.exploded = true)

/-- A concrete freshly spawned bullet, already within 5 units of its
target (distance 4) and standing still; used to exercise arrival. -/
def travelingBullet : Bullet := Bullet.new (0, 0) (4, 0) (0, 0)

/-- A concrete bullet in its one-tick explosion window: `exploding` is
set, the explosion record is frozen at the detonation point, and the
residual velocity is nonzero. -/
def explodingBullet : Bullet :=
  { Bullet.new (0, 0) (9, 9) (1, 0) with
    exploding := true
    explosion := some
      { position := (0, 0)
        color := Color.red
        size := 50
        spawn_time := 7
        duration := 1
        flash := false } }

/-! ## Helper lemmas -/

/-- `tickBullet` never decreases the lifecycle state. -/
theorem stateIdx_le_tickBullet (dt : ℚ) (b : Bullet) :
    b.stateIdx ≤ (tickBullet dt b).stateIdx := by
  cases hi : b.exploding <;> cases he : b.exploded <;>
    simp [tickBullet, Bullet.stateIdx, hi, he]

/-- `explode` never decreases the lifecycle state. -/
theorem stateIdx_le_explode (b : Bullet) (c : Color) (s d now : ℚ)
    (f : Bool) : b.stateIdx ≤ (b.explode c s d f now).stateIdx := by
  cases hi : b.exploding <;> cases he : b.exploded <;>
    simp [Bullet.explode, Bullet.stateIdx, hi, he]

/-- The arrival pass never decreases the lifecycle state. -/
theorem stateIdx_le_arrivalexplode (now : ℚ) (b : Bullet) :
    b.stateIdx ≤ (arrivalexplode now b).stateIdx := by
  unfold arrivalexplode
  split
  · exact stateIdx_le_explode b Color.red 50 1 now false
  · exact le_refl _

/-- A registry-pass operation on a single bullet is either just the
movement step, or the movement step followed by the arrival pass. -/
theorem applyOp_tick_cases (dt now : ℚ) (b : Bullet) :
    applyOp b (Op.tick dt now) = tickBullet dt b ∨
    applyOp b (Op.tick dt now) =
      arrivalexplode now (tickBullet dt b) := by
  by_cases h1 : (tickBullet dt b).exploded
  · left
    simp [applyOp, registryTickB, h1]
  · by_cases h2 : (arrivalexplode now (tickBullet dt b)).exploded
    · left
      simp [applyOp, registryTickB, h1, h2]
    · right
      simp [applyOp, registryTickB, h1, h2]

/-- No operation decreases the lifecycle state. -/
theorem stateIdx_le_applyOp (b : Bullet) (op : Op) :
    b.stateIdx ≤ (applyOp b op).stateIdx := by
  cases op with
  | tick dt now =>
    rcases applyOp_tick_cases dt now b with h | h <;> rw [h]
    · exact stateIdx_le_tickBullet dt b
    · exact le_trans (stateIdx_le_tickBullet dt b)
        (stateIdx_le_arrivalexplode now (tickBullet dt b))
  | explode c s d f now => exact stateIdx_le_explode b c s d now f

/-- `explode` preserves the lifecycle invariant. -/
theorem bulletInv_explode (b : Bullet) (c : Color) (s d now : ℚ)
    (f : Bool) (h : BulletInv b) : BulletInv (b.explode c s d f now) := by
  cases hi : b.exploding <;> cases he : b.exploded <;>
    simp_all [Bullet.explode, BulletInv, hi, he]

/-- `tickBullet` preserves the lifecycle invariant. -/
theorem bulletInv_tickBullet (dt : ℚ) (b : Bullet) (h : BulletInv b) :
    BulletInv (tickBullet dt b) := by
  cases hi : b.exploding <;> cases he : b.exploded <;>
    simp_all [tickBullet, BulletInv, hi, he]

/-- The arrival pass preserves the lifecycle invariant. -/
theorem bulletInv_arrivalexplode (now : ℚ) (b : Bullet)
    (h : BulletInv b) : BulletInv (arrivalexplode now b) := by
  unfold arrivalexplode
  split
  · exact bulletInv_explode b Color.red 50 1 now false h
  · exact h

/-- Every operation preserves the lifecycle invariant. -/
theorem bulletInv_applyOp (b : Bullet) (op : Op) (h : BulletInv b) :
    BulletInv (applyOp b op) := by
  cases op with
  | tick dt now =>
    rcases applyOp_tick_cases dt now b with heq | heq <;> rw [heq]
    · exact bulletInv_tickBullet dt b h
    · exact bulletInv_arrivalexplode now (tickBullet dt b)
        (bulletInv_tickBullet dt b h)
  | explode c s d f now => exact bulletInv_explode b c s d now f h

/-- A fresh bullet satisfies the lifecycle invariant. -/
theorem bulletInv_new (s t v : ℚ × ℚ) : BulletInv (Bullet.new s t v) := by
  simp [Bullet.new, BulletInv]

/-- Under the invariant, the explosion record is present exactly when
the lifecycle state has passed Traveling. -/
theorem bulletInv_isSome_iff (b : Bullet) (h : BulletInv b) :
    b.explosion.isSome = true ↔ 1 ≤ b.stateIdx := by
  obtain ⟨h1, _⟩ := h
  cases hi : b.exploding <;> cases he : b.exploded <;>
    simp_all [Bullet.stateIdx, hi, he]

/-- The list pipeline of a registry pass is the per-bullet fate applied
elementwise: a bullet appears in the output exactly when its fate is
`some`, in input order. -/
theorem registryTick_eq_filterMap (dt now : ℚ) (bs : List Bullet) :
    registryTick dt now bs = bs.filterMap (registryTickB dt now) := by
  induction bs with
  | nil => rfl
  | cons b bs ih =>
    by_cases h1 : (tickBullet dt b).exploded <;>
      by_cases h2 : (arrivalexplode now (tickBullet dt b)).exploded <;>
        simp_all [registryTick, registryTickB, h1, h2]

/-- After a movement step on a traveling bullet both flags stay clear. -/
theorem tickBullet_traveling (dt : ℚ) (b : Bullet)
    (hi : b.exploding = false) (he : b.exploded = false) :
    (tickBullet dt b).exploding = false ∧
    (tickBullet dt b).exploded = false := by
  simp [tickBullet, hi, he]

/-- The arrival pass on a traveling bullet: the bullet ends up exploding
exactly when it is at its target, never exploded, and a detonation
installs the hardcoded record at the current position. -/
theorem arrivalexplode_traveling (now : ℚ) (b : Bullet)
    (hi : b.exploding = false) (he : b.exploded = false) :
    ((arrivalexplode now b).exploding = b.at_target) ∧
    (arrivalexplode now b).exploded = false ∧
    (b.at_target = true →
      (arrivalexplode now b).explosion = some
        { position := b.position
          color := Color.red
          size := 50
          spawn_time := now
          duration := 1
          flash := false }) := by
  cases ht : b.at_target <;>
    simp [arrivalexplode, Bullet.explode, hi, he, ht]

/-- The movement loop finalizes the explosion window: a bullet that
enters it Exploding leaves it Exploded, whatever its record holds. -/
theorem tickBullet_finalizes (dt : ℚ) (b : Bullet)
    (hi : b.exploding = true) : (tickBullet dt b).exploded = true := by
  simp [tickBullet, hi]

/-- A bullet whose movement step leaves it Exploded is pruned by the
pass. -/
theorem registryTickB_none_of (dt now : ℚ) (b : Bullet)
    (h : (tickBullet dt b).exploded = true) :
    registryTickB dt now b = none := by
  simp [registryTickB, h]

/-- A bullet that is not Exploded after movement nor after the arrival
pass survives the pass as the arrival pass's result. -/
theorem registryTickB_some_of (dt now : ℚ) (b : Bullet)
    (h1 : (tickBullet dt b).exploded = false)
    (h2 : (arrivalexplode now (tickBullet dt b)).exploded = false) :
    registryTickB dt now b =
      some (arrivalexplode now (tickBullet dt b)) := by
  simp [registryTickB, h1, h2]

/-! ## Claim theorems -/

/-- C1: starting from a fresh bullet, after any sequence of registry
ticks and `explode` calls the lifecycle invariant holds — the explosion
record is non-empty exactly when the state is Exploding or Exploded —
and every single operation moves the state only forward along
Traveling, Exploding, Exploded, never backward. -/
theorem c1_lifecycle_monotone (s t v : ℚ × ℚ) (ops : List Op) :
    BulletInv (applyOps (Bullet.new s t v) ops) ∧
    ((applyOps (Bullet.new s t v) ops).explosion.isSome = true ↔
      1 ≤ (applyOps (Bullet.new s t v) ops).stateIdx) ∧
    ∀ (b : Bullet) (op : Op), b.stateIdx ≤ (applyOp b op).stateIdx := by
  have hinv : ∀ (b : Bullet), BulletInv b →
      BulletInv (applyOps b ops) := by
    induction ops with
    | nil => intro b h; exact h
    | cons o os ih =>
      intro b h
      exact ih (applyOp b o) (bulletInv_applyOp b o h)
  have h := hinv (Bullet.new s t v) (bulletInv_new s t v)
  exact ⟨h, bulletInv_isSome_iff _ h, stateIdx_le_applyOp⟩

/-- C3: `explode` is a no-op on a bullet already Exploding or Exploded;
on a Traveling bullet it creates exactly one explosion record frozen at
the current position and switches the state to Exploding; and a second
call right after a first one changes nothing, so two successive calls
produce exactly one record. -/
theorem c3_explode_idempotent (b : Bullet) (c c' : Color)
    (s d now s' d' now' : ℚ) (f f' : Bool) :
    (b.exploding = true ∨ b.exploded = true →
      b.explode c s d f now = b) ∧
    (b.exploding = false → b.exploded = false →
      b.explode c s d f now =
        { b with
          explosion := some
            { position := b.position
              color := c
              size := s
              spawn_time := now
              duration := d
              flash := f }
          exploding := true }) ∧
    (b.explode c s d f now).explode c' s' d' f' now' =
      b.explode c s d f now := by
  cases hi : b.exploding <;> cases he : b.exploded <;>
    simp [Bullet.explode, hi, he]

/-- C3 witness: on a fresh traveling bullet `explode` installs the record
at the current position, and on an exploding bullet it is a no-op. -/
theorem c3_explode_idempotent_witness :
    travelingBullet.explode Color.white 50 1 false 7 =
      { travelingBullet with
        explosion := some
          { position := travelingBullet.position
            color := Color.white
            size := 50
            spawn_time := 7
            duration := 1
            flash := false }
        exploding := true } ∧
    explodingBullet.explode Color.white 50 1 false 7 = explodingBullet :=
  ⟨(c3_explode_idempotent travelingBullet Color.white Color.red
      50 1 7 50 1 7 false false).2.1 rfl rfl,
   (c3_explode_idempotent explodingBullet Color.white Color.red
      50 1 7 50 1 7 false false).1 (Or.inl rfl)⟩

/-- C4: a single `increase_difficulty` call at current round `r`
subtracts `0.1·r` from the spawn rate, adds `1.1·r` to the speed, adds
`r` to the rounds hint, increments the round, and subtracts `0.01·(r+1)`
from the explosion size using the incremented round; from the defaults
this yields round 2, spawn rate 2.9, speed 51.1, explosion size 99.98
and rounds hint 11. -/
theorem c4_escalate_deltas (d : Difficulty) :
    d.increase_difficulty =
      { missile_spawn_rate := d.missile_spawn_rate - (1 / 10) * (d.round : ℚ)
        missile_speed := d.missile_speed + (11 / 10) * (d.round : ℚ)
        missile_rounds := d.missile_rounds + d.round
        round := d.round + 1
        explosion_size :=
          d.explosion_size - (1 / 100) * ((d.round : ℚ) + 1) } ∧
    Difficulty.new.increase_difficulty =
      { missile_spawn_rate := 2.9
        missile_speed := 51.1
        missile_rounds := 11
        round := 2
        explosion_size := 99.98 } := by
  constructor
  · simp [Difficulty.increase_difficulty]
  · norm_num [Difficulty.increase_difficulty, Difficulty.new,
      Difficulty.mk.injEq]

/-- C9: `reset` after any number of `increase_difficulty` calls restores
the session defaults round 1, spawn rate 3, speed 50, explosion size 100
and rounds hint 10. -/
theorem c9_reset_restores_defaults (n : ℕ) :
    (Difficulty.increase_difficulty^[n] Difficulty.new).reset =
      Difficulty.new ∧
    Difficulty.new =
      { missile_spawn_rate := 3
        missile_speed := 50
        missile_rounds := 10
        round := 1
        explosion_size := 100 } :=
  ⟨rfl, rfl⟩

/-- C10: `get_explosion_spawn_time` never hits the `unwrap` panic: it
always returns normally, with 0 when the bullet has no explosion record
and with the record's `spawn_time` otherwise. -/
theorem c10_spawn_time_total (b : Bullet) :
    b.get_explosion_spawn_time =
      some (b.explosion.elim 0 Explosion.spawn_time) := by
  cases h : b.explosion <;>
    simp [Bullet.get_explosion_spawn_time, h]

/-- C2: a registry pass is elementwise; a bullet Exploding at the start
of a pass is unconditionally marked Exploded by the movement loop —
whatever its stored explosion duration — and is pruned within that same
pass; and a traveling bullet always survives the pass, and if it
detonated during the pass (so it is Exploding in the pass's output
snapshot), the very next pass prunes it. -/
theorem c2_one_tick_window (dt now dt' now' : ℚ) (b : Bullet)
    (bs : List Bullet) :
    registryTick dt now bs = bs.filterMap (registryTickB dt now) ∧
    (b.exploding = true →
      (tickBullet dt b).exploded = true ∧
      registryTickB dt now b = none) ∧
    (b.exploding = false → b.exploded = false →
      ∃ m, registryTickB dt now b = some m ∧
        (m.exploding = true → registryTickB dt' now' m = none)) := by
  refine ⟨registryTick_eq_filterMap dt now bs, fun hi => ?_, ?_⟩
  · exact ⟨tickBullet_finalizes dt b hi,
      registryTickB_none_of dt now b (tickBullet_finalizes dt b hi)⟩
  · intro hi he
    obtain ⟨hm1, hm2⟩ := tickBullet_traveling dt b hi he
    obtain ⟨ha1, ha2, _⟩ :=
      arrivalexplode_traveling now (tickBullet dt b) hm1 hm2
    refine ⟨arrivalexplode now (tickBullet dt b),
      registryTickB_some_of dt now b hm2 ha2, fun hexp => ?_⟩
    exact registryTickB_none_of dt' now' _
      (tickBullet_finalizes dt' _ hexp)

/-- C2 witness: a concrete exploding bullet is marked Exploded and
pruned within one pass, and a concrete traveling bullet that detonates
survives as Exploding and is pruned by the next pass. -/
theorem c2_one_tick_window_witness :
    ((tickBullet 1 explodingBullet).exploded = true ∧
      registryTickB 1 0 explodingBullet = none) ∧
    (∃ m, registryTickB 1 9 travelingBullet = some m ∧
      (m.exploding = true → registryTickB 1 11 m = none)) :=
  ⟨(c2_one_tick_window 1 0 1 11 explodingBullet []).2.1 rfl,
   (c2_one_tick_window 1 9 1 11 travelingBullet []).2.2 rfl rfl⟩

set_option maxRecDepth 4000

/-- C5 counterexample: the emission count is not one per accumulated
second and is not chunking-invariant: a single frame of 3 seconds
yields 1 emission (not 3), two frames of 1.5 seconds yield 2, and both
sixty frames of 1/60 and one frame of 1.0 yield 0 because the
threshold comparison is strict. -/
theorem c5_counterexample :
    schedCount [3] = 1 ∧
    schedCount [3 / 2, 3 / 2] = 2 ∧
    schedCount (List.replicate 60 (1 / 60)) = 0 ∧
    schedCount [1] = 0 := by
  norm_num [schedCount, schedCountFrom, schedTick, List.replicate]

/-- C5 amended: each frame emits at most one spawn request, a frame
emits exactly when the accumulator plus its `dt` exceeds 1.0, and the
count depends on the chunking of a fixed total because emission resets
the accumulator to 0 and discards the surplus. -/
theorem c5_amended_count (st dt : ℚ) (dts : List ℚ) :
    schedCountFrom st dts ≤ dts.length ∧
    schedCountFrom st [dt] = (if st + dt > 1 then 1 else 0) ∧
    (schedCount [3 / 2, 3 / 2] = 2 ∧ schedCount [3] = 1 ∧
      schedCount (List.replicate 60 (1 / 60)) = 0 ∧
      schedCount [1] = 0) := by
  refine ⟨?_, ?_,
    by norm_num [schedCount, schedCountFrom, schedTick, List.replicate]⟩
  · induction dts generalizing st with
    | nil => simp [schedCountFrom]
    | cons d ds ih =>
      have h := ih (schedTick Difficulty.new (0, 0) (0, 0) (0, 0) st d).1
      simp only [schedCountFrom, List.length_cons]
      split <;> omega
  · simp only [schedCountFrom, schedTick]
    split <;> simp_all

/-- C6: a scheduler frame adds `dt` to the accumulator and emits exactly
when the sum exceeds the fixed threshold 1.0, resetting the accumulator
to 0 on emission and retaining the sum otherwise; the comparison never
reads the difficulty state — for any two difficulty values the
accumulator update and the presence of an emission coincide (only the
emitted velocity magnitude differs). -/
theorem c6_threshold_fixed (difficulty : Difficulty)
    (src tgt dir : ℚ × ℚ) (st dt : ℚ) :
    schedTick difficulty src tgt dir st dt =
      (if st + dt > 1 then
        (0, some { source := src, target := tgt,
                   velocity := vscale difficulty.missile_speed dir })
      else (st + dt, none)) ∧
    ∀ d' : Difficulty,
      (schedTick d' src tgt dir st dt).1 =
        (schedTick difficulty src tgt dir st dt).1 ∧
      ((schedTick d' src tgt dir st dt).2.isSome ↔
        (schedTick difficulty src tgt dir st dt).2.isSome) := by
  refine ⟨rfl, fun d' => ?_⟩
  simp only [schedTick]
  split <;> simp

/-- C7: a traveling bullet survives the registry pass as the result of
the arrival pass on its moved state; it comes out detonated exactly when
the Euclidean distance from its moved position to its target is strictly
below 5; and a detonation installs the hardcoded record — size 50,
duration 1 second, no flash — at the moved position, independent of any
difficulty state. -/
theorem c7_arrival_detonation (dt now : ℚ) (b : Bullet)
    (hi : b.exploding = false) (he : b.exploded = false) :
    registryTickB dt now b =
      some (arrivalexplode now (tickBullet dt b)) ∧
    ((arrivalexplode now (tickBullet dt b)).exploding = true ↔
      Real.sqrt ((distSq (tickBullet dt b).position
        (tickBullet dt b).target : ℚ) : ℝ) < 5) ∧
    ((arrivalexplode now (tickBullet dt b)).exploding = true →
      (arrivalexplode now (tickBullet dt b)).explosion = some
        { position := (tickBullet dt b).position
          color := Color.red
          size := 50
          spawn_time := now
          duration := 1
          flash := false }) := by
  obtain ⟨hm1, hm2⟩ := tickBullet_traveling dt b hi he
  obtain ⟨ha1, ha2, ha3⟩ :=
    arrivalexplode_traveling now (tickBullet dt b) hm1 hm2
  refine ⟨by simp [registryTickB, hm2, ha2], ?_, fun hexp => ?_⟩
  · rw [ha1]
    have h5 : (0 : ℝ) < 5 := by norm_num
    rw [Real.sqrt_lt' h5]
    constructor
    · intro h
      have : distSq (tickBullet dt b).position (tickBullet dt b).target
          < 25 := by
        simpa [Bullet.at_target] using h
      calc ((distSq (tickBullet dt b).position
              (tickBullet dt b).target : ℚ) : ℝ)
          < ((25 : ℚ) : ℝ) := by exact_mod_cast this
        _ = (5 : ℝ) ^ 2 := by norm_num
    · intro h
      have : ((distSq (tickBullet dt b).position
          (tickBullet dt b).target : ℚ) : ℝ) < ((25 : ℚ) : ℝ) := by
        calc ((distSq (tickBullet dt b).position
                (tickBullet dt b).target : ℚ) : ℝ)
            < (5 : ℝ) ^ 2 := h
          _ = ((25 : ℚ) : ℝ) := by norm_num
      simp [Bullet.at_target]
      exact_mod_cast this
  · exact ha3 (by rw [← ha1, hexp])

/-- C7 witness: the concrete traveling bullet four units from its target
survives the pass detonated, with the hardcoded record at its (moved)
position. -/
theorem c7_arrival_detonation_witness :
    registryTickB 1 9 travelingBullet =
      some (arrivalexplode 9 (tickBullet 1 travelingBullet)) ∧
    ((arrivalexplode 9 (tickBullet 1 travelingBullet)).exploding =
        true ↔
      Real.sqrt ((distSq (tickBullet 1 travelingBullet).position
        (tickBullet 1 travelingBullet).target : ℚ) : ℝ) < 5) ∧
    ((arrivalexplode 9 (tickBullet 1 travelingBullet)).exploding =
        true →
      (arrivalexplode 9 (tickBullet 1 travelingBullet)).explosion = some
        { position := (tickBullet 1 travelingBullet).position
          color := Color.red
          size := 50
          spawn_time := 9
          duration := 1
          flash := false }) :=
  c7_arrival_detonation 1 9 travelingBullet rfl rfl

/-- C8 counterexample: a bullet that enters the registry pass in the
Exploding state still has its position advanced by the movement loop —
with velocity (1, 0) and dt 1 it is displaced from (0, 0) to (1, 0) —
so movement is not restricted to Traveling bullets. -/
theorem c8_counterexample :
    explodingBullet.exploding = true ∧
    (tickBullet 1 explodingBullet).position ≠
      explodingBullet.position := by
  refine ⟨rfl, ?_⟩
  norm_num [explodingBullet, tickBullet, Bullet.new, vadd, vscale,
    Prod.ext_iff]

/-- C8 amended: the movement loop of a registry pass advances the
position of every bullet in the vector by velocity times dt, whatever
its lifecycle state — a bullet Exploding at the start of the pass is
first marked Exploded and then still moved before being pruned — while
the frozen explosion record is never touched. -/
theorem c8_all_moved (dt : ℚ) (b : Bullet) :
    (tickBullet dt b).position =
      vadd b.position (vscale dt b.velocity) ∧
    (tickBullet dt b).explosion = b.explosion ∧
    (tickBullet dt b).velocity = b.velocity := by
  cases hi : b.exploding <;> simp [tickBullet, hi]

end SpaceCommand
